import Mathlib

/-!
# Verification of the curve25519 debugging shadow types

A shallow embedding of the expression-tracking wrapper around curve25519
scalars and Ristretto points (`src/expr.rs`, `src/scalar.rs`,
`src/ristretto.rs`).  The external arithmetic library (curve25519-dalek) is
out of scope for the repository and is modelled here by the scalar field
`ZMod ell` (the prime order of the Ristretto group) and by a cyclic group
of that order for points; the repository's own code is transcribed
operation by operation.
-/

namespace CurveDbg

/-- The order of the Ristretto group / the scalar field modulus,
ℓ = 2^252 + 27742317777372353535851937790883648493. -/
def ell : ℕ := 2 ^ 252 + 27742317777372353535851937790883648493

theorem ell_pos : 0 < ell := by unfold ell; positivity

instance : NeZero ell := ⟨Nat.pos_iff_ne_zero.mp ell_pos⟩

theorem one_lt_ell : 1 < ell := by
  unfold ell
  calc 1 < 2 ^ 252 := by norm_num
  _ ≤ 2 ^ 252 + 27742317777372353535851937790883648493 := Nat.le_add_right _ _

instance : Fact (1 < ell) := ⟨one_lt_ell⟩

/-- Model of `curve25519_dalek::scalar::Scalar`: the field of integers
modulo the group order. -/
abbrev DalekScalar := ZMod ell

/-- Model of `curve25519_dalek::ristretto::RistrettoPoint`: the Ristretto
group is cyclic of prime order ℓ, modelled by its discrete logarithm. -/
structure RPoint where
  log : ZMod ell
deriving DecidableEq

/-- Group addition of points (external library primitive). -/
def RPoint.add (p q : RPoint) : RPoint := ⟨p.log + q.log⟩

/-- Group subtraction of points (external library primitive). -/
def RPoint.sub (p q : RPoint) : RPoint := ⟨p.log - q.log⟩

/-- Group negation of a point (external library primitive). -/
def RPoint.neg (p : RPoint) : RPoint := ⟨-p.log⟩

/-- Scalar multiplication of a point (external library primitive). -/
def RPoint.smul (s : DalekScalar) (p : RPoint) : RPoint := ⟨s * p.log⟩

/-- The group identity element (external library primitive). -/
def RPoint.id : RPoint := ⟨0⟩

/-- The Ristretto basepoint (a fixed generator, external primitive). -/
def RPoint.basepoint : RPoint := ⟨1⟩

/-- The expression tree, transcribed from `src/expr.rs` (`enum Tree`). -/
inductive Tree where
  | Zero : Tree
  | One : Tree
  | Unnamed : Tree
  | Name : String → Tree
  | Add : Tree → Tree → Tree
  | Sub : Tree → Tree → Tree
  | Mul : Tree → Tree → Tree
  | Inv : Tree → Tree
  | Neg : Tree → Tree
deriving DecidableEq

/-- The textual rendering of a tree, transcribed from `impl Debug for Tree`
in `src/expr.rs`: `Add`/`Sub` are parenthesized, `Mul` is rendered bare,
`Inv` postfix, `Neg` prefix. -/
def Tree.render : Tree → String
  | Tree.Zero => "0"
  | Tree.One => "1"
  | Tree.Unnamed => "?"
  | Tree.Name s => s
  | Tree.Add l r => "(" ++ l.render ++ " + " ++ r.render ++ ")"
  | Tree.Sub l r => "(" ++ l.render ++ " - " ++ r.render ++ ")"
  | Tree.Mul l r => l.render ++ " * " ++ r.render
  | Tree.Inv x => x.render ++ "⁻¹"
  | Tree.Neg x => "-" ++ x.render

/-- The shadow scalar, `struct TestScalar` from `src/scalar.rs`. -/
structure TestScalar where
  value : DalekScalar
  tree : Tree
deriving DecidableEq

/-- The shadow point, `struct TestRistrettoPoint` from `src/ristretto.rs`. -/
structure TestRistrettoPoint where
  value : RPoint
  tree : Tree
deriving DecidableEq

/-- `impl PartialEq for TestScalar`: compares only `value`. -/
def TestScalar.eqb (a b : TestScalar) : Bool := decide (a.value = b.value)

/-- `impl ConstantTimeEq for TestScalar`: delegates to `value.ct_eq`
(a `Choice` is modelled as a `Bool`). -/
def TestScalar.ctEq (a b : TestScalar) : Bool := decide (a.value = b.value)

/-- `impl Debug for TestScalar`: `f.debug_tuple("Scalar").field(&self.tree)`,
which prints as `Scalar(<tree>)`. -/
def TestScalar.debugFmt (s : TestScalar) : String :=
  "Scalar(" ++ s.tree.render ++ ")"

/-- `impl Named for TestScalar`: replaces the tree by `Name(name)`,
keeping `value`. -/
def TestScalar.named (s : TestScalar) (name : String) : TestScalar :=
  { s with tree := Tree.Name name }

/-- `TestScalar::ZERO`. -/
def TestScalar.ZERO : TestScalar := ⟨0, Tree.Zero⟩

/-- `TestScalar::ONE`. -/
def TestScalar.ONE : TestScalar := ⟨1, Tree.One⟩

/-- `impl From<DalekScalar> for TestScalar`: tree `Unnamed`. -/
def TestScalar.fromDalek (v : DalekScalar) : TestScalar := ⟨v, Tree.Unnamed⟩

/-- `Mul for &TestScalar` (`src/scalar.rs`). -/
def TestScalar.mul (a b : TestScalar) : TestScalar :=
  ⟨a.value * b.value, Tree.Mul a.tree b.tree⟩

/-- `MulAssign for TestScalar` (`src/scalar.rs`), as the value it leaves
in place. -/
def TestScalar.mulAssign (a b : TestScalar) : TestScalar :=
  ⟨a.value * b.value, Tree.Mul a.tree b.tree⟩

/-- `Add for &TestScalar`. -/
def TestScalar.add (a b : TestScalar) : TestScalar :=
  ⟨a.value + b.value, Tree.Add a.tree b.tree⟩

/-- `AddAssign for TestScalar`. -/
def TestScalar.addAssign (a b : TestScalar) : TestScalar :=
  ⟨a.value + b.value, Tree.Add a.tree b.tree⟩

/-- `Sub for &TestScalar`. -/
def TestScalar.sub (a b : TestScalar) : TestScalar :=
  ⟨a.value - b.value, Tree.Sub a.tree b.tree⟩

/-- `SubAssign for TestScalar`. -/
def TestScalar.subAssign (a b : TestScalar) : TestScalar :=
  ⟨a.value - b.value, Tree.Sub a.tree b.tree⟩

/-- `Neg for &TestScalar`. -/
def TestScalar.neg (a : TestScalar) : TestScalar :=
  ⟨-a.value, Tree.Neg a.tree⟩

/-- `TestScalar::invert`: the external library's field inversion
(`x⁻¹`, with the convention `0⁻¹ = 0`), tree wrapped in `Inv`. -/
def TestScalar.invert (a : TestScalar) : TestScalar :=
  ⟨a.value⁻¹, Tree.Inv a.tree⟩

/-- `impl PartialEq for TestRistrettoPoint`: compares only `value`. -/
def TestRistrettoPoint.eqb (a b : TestRistrettoPoint) : Bool :=
  decide (a.value = b.value)

/-- `impl ConstantTimeEq for TestRistrettoPoint`: delegates to
`value.ct_eq` (a `Choice` is modelled as a `Bool`). -/
def TestRistrettoPoint.ctEq (a b : TestRistrettoPoint) : Bool :=
  decide (a.value = b.value)

/-- `impl Debug for TestRistrettoPoint`: also
`f.debug_tuple("Scalar").field(&self.tree)` — the same "Scalar" label as
the shadow scalar. -/
def TestRistrettoPoint.debugFmt (p : TestRistrettoPoint) : String :=
  "Scalar(" ++ p.tree.render ++ ")"

/-- `impl Named for TestRistrettoPoint`. -/
def TestRistrettoPoint.named (p : TestRistrettoPoint) (name : String) :
    TestRistrettoPoint :=
  { p with tree := Tree.Name name }

/-- `impl From<DalekRistrettoPoint> for TestRistrettoPoint`: tree
`Unnamed`. -/
def TestRistrettoPoint.fromDalek (v : RPoint) : TestRistrettoPoint :=
  ⟨v, Tree.Unnamed⟩

/-- `impl Identity for TestRistrettoPoint`: tree `One`. -/
def TestRistrettoPoint.identity : TestRistrettoPoint :=
  ⟨RPoint.id, Tree.One⟩

/-- `impl Default for TestRistrettoPoint`: the identity point with tree
`One`. -/
def TestRistrettoPoint.default : TestRistrettoPoint :=
  ⟨RPoint.id, Tree.One⟩

/-- `Add for &TestRistrettoPoint` (`src/ristretto.rs`). -/
def TestRistrettoPoint.add (p q : TestRistrettoPoint) : TestRistrettoPoint :=
  ⟨p.value.add q.value, Tree.Add p.tree q.tree⟩

/-- `AddAssign for TestRistrettoPoint`, as the value it leaves in place. -/
def TestRistrettoPoint.addAssign (p q : TestRistrettoPoint) :
    TestRistrettoPoint :=
  ⟨p.value.add q.value, Tree.Add p.tree q.tree⟩

/-- `Sub for &TestRistrettoPoint` (binary `p - q`): numeric subtraction,
tree `Sub`. -/
def TestRistrettoPoint.sub (p q : TestRistrettoPoint) : TestRistrettoPoint :=
  ⟨p.value.sub q.value, Tree.Sub p.tree q.tree⟩

/-- `SubAssign for TestRistrettoPoint` (`src/ristretto.rs` lines 246-252),
transcribed exactly as written: the body performs `self.value += rhs.value`
and builds an `Add` tree (it does not subtract). -/
def TestRistrettoPoint.subAssign (p q : TestRistrettoPoint) :
    TestRistrettoPoint :=
  ⟨p.value.add q.value, Tree.Add p.tree q.tree⟩

/-- `Neg for &TestRistrettoPoint`. -/
def TestRistrettoPoint.neg (p : TestRistrettoPoint) : TestRistrettoPoint :=
  ⟨p.value.neg, Tree.Neg p.tree⟩

/-- `Mul<&TestScalar> for &TestRistrettoPoint` (`point * scalar`): numeric
scalar multiplication, tree `Mul(point.tree, scalar.tree)`. -/
def TestRistrettoPoint.mulScalar (p : TestRistrettoPoint) (s : TestScalar) :
    TestRistrettoPoint :=
  ⟨RPoint.smul s.value p.value, Tree.Mul p.tree s.tree⟩

/-- `MulAssign<&TestScalar> for TestRistrettoPoint`, as the value it
leaves in place. -/
def TestRistrettoPoint.mulAssignScalar (p : TestRistrettoPoint)
    (s : TestScalar) : TestRistrettoPoint :=
  ⟨RPoint.smul s.value p.value, Tree.Mul p.tree s.tree⟩

/-- `Mul<&TestRistrettoPoint> for &TestScalar` (`scalar * point`): numeric
scalar multiplication, tree `Mul(scalar.tree, point.tree)`. -/
def TestScalar.mulPoint (s : TestScalar) (p : TestRistrettoPoint) :
    TestRistrettoPoint :=
  ⟨RPoint.smul s.value p.value, Tree.Mul s.tree p.tree⟩

/-- `TestRistrettoPoint::mul_base`: fixed-base multiply through the
external library, tree `Unnamed` via `From`. -/
def TestRistrettoPoint.mulBase (s : TestScalar) : TestRistrettoPoint :=
  TestRistrettoPoint.fromDalek (RPoint.smul s.value RPoint.basepoint)

/-- Little-endian interpretation of a byte string as a natural number. -/
def bytesToNat : List ℕ → ℕ
  | [] => 0
  | b :: bs => b + 256 * bytesToNat bs

/-- Little-endian encoding of a natural number into `k` bytes. -/
def natToBytes : ℕ → ℕ → List ℕ
  | 0, _ => []
  | k + 1, n => n % 256 :: natToBytes k (n / 256)

/-- Modelled from the spec: the external library's byte decoding.  A
32-byte little-endian string is canonical exactly when the integer it
encodes is below the group order ℓ; non-canonical bytes are rejected with
an absent result. -/
def dalekFromCanonicalBytes (bs : List ℕ) : Option DalekScalar :=
  if bytesToNat bs < ell then some ((bytesToNat bs : ℕ) : ZMod ell) else none

/-- Modelled from the spec: the external library's 32-byte little-endian
encoding of the canonical representative of a scalar. -/
def dalekToBytes (v : DalekScalar) : List ℕ := natToBytes 32 v.val

/-- `TestScalar::to_bytes`: passthrough on `value`. -/
def TestScalar.toBytes (s : TestScalar) : List ℕ := dalekToBytes s.value

/-- `TestScalar::from_canonical_bytes`: the external decode, mapped
through `From` (tree `Unnamed`); `CtOption` is modelled as `Option`. -/
def TestScalar.fromCanonicalBytes (bs : List ℕ) : Option TestScalar :=
  (dalekFromCanonicalBytes bs).map TestScalar.fromDalek

/-- Modelled from the spec: the external library's batch inversion
(`DalekScalar::batch_invert`), which replaces every element of the slice
by its multiplicative inverse and returns the product of all the original
values.  Rendered functionally as (returned scalar, updated slice). -/
def dalekBatchInvert (xs : List DalekScalar) : DalekScalar × List DalekScalar :=
  (xs.prod, xs.map (fun x => x⁻¹))

/-- `TestScalar::batch_invert` (`src/scalar.rs` lines 196-201): collects
each element's `value`, runs the external batch inversion on those values,
writes each resulting value back into the corresponding element (leaving
`tree` untouched), and returns the external result converted via `From`
(tree `Unnamed`). -/
def TestScalar.batchInvert (inputs : List TestScalar) :
    TestScalar × List TestScalar :=
  let values := inputs.map TestScalar.value
  let out := dalekBatchInvert values
  (TestScalar.fromDalek out.1,
    List.zipWith (fun a b => { a with value := b }) inputs out.2)

/-! ## Algebraic evaluation of expression trees

A scalar tree is evaluated by the function `sEval` under an environment
`ρ` giving each name its original numeric value.  Point trees contain
`Mul` nodes with one point child and one scalar child in either order
(both `scalar * point` and `point * scalar` build a `Mul` node in source
order), so point evaluation is the relation `PEval`. -/

/-- Algebraic evaluation of a scalar tree: `Zero`/`One` are the field
identities, a `Name` leaf is looked up in `ρ`, and `Add`/`Sub`/`Mul`/
`Inv`/`Neg` are the field operations.  `Unnamed` has no algebraic reading
and is given a junk value (it cannot occur in trees built from named
leaves, constants and operators). -/
def sEval (ρ : String → DalekScalar) : Tree → DalekScalar
  | Tree.Zero => 0
  | Tree.One => 1
  | Tree.Unnamed => 0
  | Tree.Name n => ρ n
  | Tree.Add l r => sEval ρ l + sEval ρ r
  | Tree.Sub l r => sEval ρ l - sEval ρ r
  | Tree.Mul l r => sEval ρ l * sEval ρ r
  | Tree.Inv x => (sEval ρ x)⁻¹
  | Tree.Neg x => -(sEval ρ x)

/-- Algebraic evaluation of a point tree under a scalar environment `ρ`
and a point environment `π`: `One` is the group identity, `Add`/`Sub`/
`Neg` the group operations, and a `Mul` node is scalar multiplication with
the scalar child on either side (reflecting both source operand orders). -/
inductive PEval (ρ : String → DalekScalar) (π : String → RPoint) :
    Tree → RPoint → Prop where
  | one : PEval ρ π Tree.One RPoint.id
  | name (n : String) : PEval ρ π (Tree.Name n) (π n)
  | add {l r p q} : PEval ρ π l p → PEval ρ π r q →
      PEval ρ π (Tree.Add l r) (p.add q)
  | sub {l r p q} : PEval ρ π l p → PEval ρ π r q →
      PEval ρ π (Tree.Sub l r) (p.sub q)
  | neg {t p} : PEval ρ π t p → PEval ρ π (Tree.Neg t) p.neg
  | mulPS {l p} (r : Tree) : PEval ρ π l p →
      PEval ρ π (Tree.Mul l r) (RPoint.smul (sEval ρ r) p)
  | mulSP (l : Tree) {r p} : PEval ρ π r p →
      PEval ρ π (Tree.Mul l r) (RPoint.smul (sEval ρ l) p)

/-- Shadow scalars built only from named leaves (whose original numeric
value is recorded in `ρ`), the constants `ZERO`/`ONE`, and the operators
`add`, `sub`, `mul`, `neg`, `invert` (in both binary and compound-
assignment form).  `sum`, `product`, `batch_invert` and byte decoding are
deliberately excluded. -/
inductive ScalarBuilt (ρ : String → DalekScalar) : TestScalar → Prop where
  | zero : ScalarBuilt ρ TestScalar.ZERO
  | one : ScalarBuilt ρ TestScalar.ONE
  | name (s : TestScalar) (n : String) : ρ n = s.value →
      ScalarBuilt ρ (s.named n)
  | add {a b} : ScalarBuilt ρ a → ScalarBuilt ρ b → ScalarBuilt ρ (a.add b)
  | addA {a b} : ScalarBuilt ρ a → ScalarBuilt ρ b →
      ScalarBuilt ρ (a.addAssign b)
  | sub {a b} : ScalarBuilt ρ a → ScalarBuilt ρ b → ScalarBuilt ρ (a.sub b)
  | subA {a b} : ScalarBuilt ρ a → ScalarBuilt ρ b →
      ScalarBuilt ρ (a.subAssign b)
  | mul {a b} : ScalarBuilt ρ a → ScalarBuilt ρ b → ScalarBuilt ρ (a.mul b)
  | mulA {a b} : ScalarBuilt ρ a → ScalarBuilt ρ b →
      ScalarBuilt ρ (a.mulAssign b)
  | neg {a} : ScalarBuilt ρ a → ScalarBuilt ρ a.neg
  | inv {a} : ScalarBuilt ρ a → ScalarBuilt ρ a.invert

/-- Shadow points built only from named leaves (recorded in `π`), the
identity/default constant, the group operators `add`, `sub`, `neg` (in
both binary and compound-assignment form), and scalar multiplication by a
built shadow scalar in either operand order.  `sum`, `mul_base`,
`vartime_double_scalar_mul_basepoint` and random/hash construction are
deliberately excluded. -/
inductive PointBuilt (ρ : String → DalekScalar) (π : String → RPoint) :
    TestRistrettoPoint → Prop where
  | idn : PointBuilt ρ π TestRistrettoPoint.identity
  | dflt : PointBuilt ρ π TestRistrettoPoint.default
  | name (p : TestRistrettoPoint) (n : String) : π n = p.value →
      PointBuilt ρ π (p.named n)
  | add {p q} : PointBuilt ρ π p → PointBuilt ρ π q →
      PointBuilt ρ π (p.add q)
  | addA {p q} : PointBuilt ρ π p → PointBuilt ρ π q →
      PointBuilt ρ π (p.addAssign q)
  | sub {p q} : PointBuilt ρ π p → PointBuilt ρ π q →
      PointBuilt ρ π (p.sub q)
  | subA {p q} : PointBuilt ρ π p → PointBuilt ρ π q →
      PointBuilt ρ π (p.subAssign q)
  | neg {p} : PointBuilt ρ π p → PointBuilt ρ π p.neg
  | mulPS {p s} : PointBuilt ρ π p → ScalarBuilt ρ s →
      PointBuilt ρ π (p.mulScalar s)
  | mulPSA {p s} : PointBuilt ρ π p → ScalarBuilt ρ s →
      PointBuilt ρ π (p.mulAssignScalar s)
  | mulSP {s p} : ScalarBuilt ρ s → PointBuilt ρ π p →
      PointBuilt ρ π (s.mulPoint p)

/-- Evaluating the tree of a built shadow scalar recovers its value. -/
theorem scalarBuilt_sEval (ρ : String → DalekScalar) :
    ∀ s : TestScalar, ScalarBuilt ρ s → sEval ρ s.tree = s.value := by
  intro s hs
  induction hs with
  | zero => rfl
  | one => rfl
  | name s n h => simpa [TestScalar.named, sEval] using h
  | add ha hb iha ihb =>
      simp [TestScalar.add, sEval, iha, ihb]
  | addA ha hb iha ihb =>
      simp [TestScalar.addAssign, sEval, iha, ihb]
  | sub ha hb iha ihb =>
      simp [TestScalar.sub, sEval, iha, ihb]
  | subA ha hb iha ihb =>
      simp [TestScalar.subAssign, sEval, iha, ihb]
  | mul ha hb iha ihb =>
      simp [TestScalar.mul, sEval, iha, ihb]
  | mulA ha hb iha ihb =>
      simp [TestScalar.mulAssign, sEval, iha, ihb]
  | neg ha iha => simp [TestScalar.neg, sEval, iha]
  | inv ha iha => simp [TestScalar.invert, sEval, iha]

/-- Evaluating the tree of a built shadow point recovers its value. -/
theorem pointBuilt_pEval (ρ : String → DalekScalar) (π : String → RPoint) :
    ∀ p : TestRistrettoPoint, PointBuilt ρ π p → PEval ρ π p.tree p.value := by
  intro p hp
  induction hp with
  | idn => exact PEval.one
  | dflt => exact PEval.one
  | name p n h => simpa [TestRistrettoPoint.named] using h ▸ PEval.name n
  | add hp hq ihp ihq => exact PEval.add ihp ihq
  | addA hp hq ihp ihq => exact PEval.add ihp ihq
  | sub hp hq ihp ihq => exact PEval.sub ihp ihq
  | subA hp hq ihp ihq => exact PEval.add ihp ihq
  | neg hp ihp => exact PEval.neg ihp
  | @mulPS p s hp hs ihp =>
      have h := scalarBuilt_sEval ρ s hs
      have e := PEval.mulPS (ρ := ρ) (π := π) s.tree ihp
      rw [h] at e
      exact e
  | @mulPSA p s hp hs ihp =>
      have h := scalarBuilt_sEval ρ s hs
      have e := PEval.mulPS (ρ := ρ) (π := π) s.tree ihp
      rw [h] at e
      exact e
  | @mulSP s p hs hp ihp =>
      have h := scalarBuilt_sEval ρ s hs
      have e := PEval.mulSP (ρ := ρ) (π := π) s.tree ihp
      rw [h] at e
      exact e

/-! ## Auxiliary facts about the modulus and byte encoding -/

theorem two_lt_ell : 2 < ell := by
  unfold ell
  calc 2 < 2 ^ 252 := by norm_num
  _ ≤ 2 ^ 252 + 27742317777372353535851937790883648493 := Nat.le_add_right _ _

theorem two_ne_zero_mod_ell : (2 : ZMod ell) ≠ 0 := by
  intro h
  have h2 : ((2 : ℕ) : ZMod ell) = 0 := by exact_mod_cast h
  have hd : ell ∣ 2 := (CharP.cast_eq_zero_iff (ZMod ell) ell 2).mp h2
  have hle : ell ≤ 2 := Nat.le_of_dvd (by norm_num) hd
  exact absurd hle (Nat.not_le_of_lt two_lt_ell)

theorem bytesToNat_natToBytes {k n : ℕ} (h : n < 256 ^ k) :
    bytesToNat (natToBytes k n) = n := by
  induction k generalizing n with
  | zero =>
      have : n = 0 := Nat.lt_one_iff.mp (by simpa using h)
      simp [this, natToBytes, bytesToNat]
  | succ k ih =>
      have hdiv : n / 256 < 256 ^ k := by
        rw [Nat.div_lt_iff_lt_mul (by norm_num : 0 < 256)]
        calc n < 256 ^ (k + 1) := h
        _ = 256 ^ k * 256 := by ring
      simp [natToBytes, bytesToNat, ih hdiv, Nat.mod_add_div]

theorem ell_lt_byte_range : ell < 256 ^ 32 := by
  unfold ell
  norm_num

/-! ## The claims -/

/-- C1 (Tree/value consistency invariant): for every shadow scalar or
shadow point built only from named leaves, constants, and the operators
add, sub, mul, neg, invert, and scalar-point multiplication, algebraically
evaluating its expression tree — substituting each `Name` leaf's original
numeric value, `Zero`/`One` as the identities, and interpreting `Add`/
`Sub`/`Mul`/`Neg`/`Inv` as the corresponding field/group operations —
yields exactly the shadow value's numeric `value` field. -/
theorem tree_value_consistency (ρ : String → DalekScalar)
    (π : String → RPoint) :
    (∀ s : TestScalar, ScalarBuilt ρ s → sEval ρ s.tree = s.value) ∧
    (∀ p : TestRistrettoPoint, PointBuilt ρ π p → PEval ρ π p.tree p.value) :=
  ⟨scalarBuilt_sEval ρ, pointBuilt_pEval ρ π⟩

/-- Witness for C1: the concrete shadow scalar `x * x` with `x` named and
valued 2 evaluates, via its tree, to its recorded value 4. -/
theorem tree_value_consistency_witness :
    sEval (fun _ => (2 : DalekScalar))
        (TestScalar.mul (TestScalar.named (TestScalar.fromDalek 2) "x")
          (TestScalar.named (TestScalar.fromDalek 2) "x")).tree
      = (TestScalar.mul (TestScalar.named (TestScalar.fromDalek 2) "x")
          (TestScalar.named (TestScalar.fromDalek 2) "x")).value :=
  (tree_value_consistency (fun _ => (2 : DalekScalar)) (fun _ => RPoint.id)).1
    _ (ScalarBuilt.mul (ScalarBuilt.name _ "x" rfl)
        (ScalarBuilt.name _ "x" rfl))

/-- C2 (counter-evidence): the compound-assignment subtraction on shadow
points does not subtract.  At `p = basepoint` (tree `Name "p"`) and
`q = basepoint` (tree `Name "q"`), `p -= q` leaves the numeric sum
`p + q` with tree `Add(p.tree, q.tree)`, and that sum differs from the
numeric difference `p - q` demanded by the claim. -/
theorem point_subAssign_is_add :
    (TestRistrettoPoint.subAssign ⟨RPoint.basepoint, Tree.Name "p"⟩
          ⟨RPoint.basepoint, Tree.Name "q"⟩).value
        = RPoint.add RPoint.basepoint RPoint.basepoint ∧
    (TestRistrettoPoint.subAssign ⟨RPoint.basepoint, Tree.Name "p"⟩
          ⟨RPoint.basepoint, Tree.Name "q"⟩).tree
        = Tree.Add (Tree.Name "p") (Tree.Name "q") ∧
    RPoint.add RPoint.basepoint RPoint.basepoint
        ≠ RPoint.sub RPoint.basepoint RPoint.basepoint := by
  refine ⟨rfl, rfl, ?_⟩
  intro h
  have hlog : (1 : ZMod ell) + 1 = 1 - 1 := congrArg RPoint.log h
  rw [sub_self] at hlog
  exact two_ne_zero_mod_ell (by rw [← hlog]; norm_num)

/-- C3 (counter-evidence): a shadow point diverges numerically from the
plain point under the same operation sequence, because the shadow
`sub_assign` adds.  Starting from the identity point and subtracting the
basepoint, the shadow value is `identity + basepoint`, while the plain
library computes `identity - basepoint`; the two differ. -/
theorem point_subAssign_diverges_from_plain :
    (TestRistrettoPoint.subAssign TestRistrettoPoint.identity
          (TestRistrettoPoint.fromDalek RPoint.basepoint)).value
        = RPoint.add RPoint.id RPoint.basepoint ∧
    RPoint.add RPoint.id RPoint.basepoint
        ≠ RPoint.sub RPoint.id RPoint.basepoint := by
  refine ⟨rfl, ?_⟩
  intro h
  have hlog : (0 : ZMod ell) + 1 = 0 - 1 := congrArg RPoint.log h
  have h2 : (2 : ZMod ell) = 0 := by
    have := hlog
    ring_nf at this ⊢
    linear_combination this
  exact two_ne_zero_mod_ell h2

/-- C4: scalar-point multiplication in either operand order produces a
point whose numeric value is the scalar multiple, and whose tree is a
`Mul` node in source order: `point * scalar` gives
`Mul(point.tree, scalar.tree)` and `scalar * point` gives
`Mul(scalar.tree, point.tree)`. -/
theorem scalar_point_mul_source_order (p : TestRistrettoPoint)
    (s : TestScalar) :
    (p.mulScalar s).value = RPoint.smul s.value p.value ∧
    (p.mulScalar s).tree = Tree.Mul p.tree s.tree ∧
    (s.mulPoint p).value = RPoint.smul s.value p.value ∧
    (s.mulPoint p).tree = Tree.Mul s.tree p.tree :=
  ⟨rfl, rfl, rfl, rfl⟩

/-- C5: equality and constant-time equality of shadow scalars and shadow
points depend only on the numeric `value` fields: whatever the trees, the
comparisons report equal exactly when the values are equal. -/
theorem eq_ignores_tree (v w : DalekScalar) (P Q : RPoint)
    (t₁ t₂ t₃ t₄ : Tree) :
    (TestScalar.eqb ⟨v, t₁⟩ ⟨w, t₂⟩ = true ↔ v = w) ∧
    (TestScalar.ctEq ⟨v, t₁⟩ ⟨w, t₂⟩ = true ↔ v = w) ∧
    (TestRistrettoPoint.eqb ⟨P, t₃⟩ ⟨Q, t₄⟩ = true ↔ P = Q) ∧
    (TestRistrettoPoint.ctEq ⟨P, t₃⟩ ⟨Q, t₄⟩ = true ↔ P = Q) := by
  refine ⟨?_, ?_, ?_, ?_⟩ <;>
    simp [TestScalar.eqb, TestScalar.ctEq, TestRistrettoPoint.eqb,
      TestRistrettoPoint.ctEq]

/-- C6: renaming twice keeps the numeric value and only the last name: for
any shadow scalar or point `v`, `v.named(n1).named(n2)` has `v`'s value
and tree `Name(n2)`. -/
theorem named_last_wins (s : TestScalar) (p : TestRistrettoPoint)
    (n₁ n₂ : String) :
    ((s.named n₁).named n₂).value = s.value ∧
    ((s.named n₁).named n₂).tree = Tree.Name n₂ ∧
    ((p.named n₁).named n₂).value = p.value ∧
    ((p.named n₁).named n₂).tree = Tree.Name n₂ :=
  ⟨rfl, rfl, rfl, rfl⟩

/-- C7 (counterexample): the rendering does not fully parenthesize every
binary operation — a `Mul` node is rendered bare, without surrounding
parentheses: `Mul(Name "a", Name "b")` prints as `a * b`, not
`(a * b)`. -/
theorem render_mul_not_parenthesized :
    Tree.render (Tree.Mul (Tree.Name "a") (Tree.Name "b")) = "a * b" ∧
    Tree.render (Tree.Mul (Tree.Name "a") (Tree.Name "b"))
      ≠ "(" ++ "a" ++ " * " ++ "b" ++ ")" := by
  refine ⟨rfl, ?_⟩
  decide

/-- C7 (amended): the rendering is a pure, deterministic function that
parenthesizes `Add` and `Sub`, renders `Mul` without parentheses, renders
`Inv` as a postfix superscript inverse and `Neg` as a prefix minus, in
each case rendering the children recursively before composing the
parent. -/
theorem render_shape (l r x : Tree) :
    Tree.render (Tree.Add l r)
        = "(" ++ l.render ++ " + " ++ r.render ++ ")" ∧
    Tree.render (Tree.Sub l r)
        = "(" ++ l.render ++ " - " ++ r.render ++ ")" ∧
    Tree.render (Tree.Mul l r) = l.render ++ " * " ++ r.render ∧
    Tree.render (Tree.Inv x) = x.render ++ "⁻¹" ∧
    Tree.render (Tree.Neg x) = "-" ++ x.render :=
  ⟨rfl, rfl, rfl, rfl, rfl⟩

/-- Writing externally produced values back into a slice elementwise:
the trees are untouched and each value becomes `f` of the original. -/
theorem zipWith_writeback :
    ∀ (xs : List TestScalar) (vs : List DalekScalar),
      xs.length = vs.length →
      (List.zipWith (fun a b => { a with value := b }) xs vs).map
          TestScalar.tree = xs.map TestScalar.tree ∧
      (List.zipWith (fun a b => { a with value := b }) xs vs).map
          TestScalar.value = vs := by
  intro xs
  induction xs with
  | nil =>
      intro vs h
      simp [(List.length_eq_zero.mp h.symm)]
  | cons a xs ih =>
      intro vs h
      cases vs with
      | nil => simp at h
      | cons v vs =>
          have hv := ih vs (by simpa using h)
          simp [hv.1, hv.2]

/-- C8: `batch_invert` on a slice of nonzero shadow scalars replaces each
element's numeric value in place with its multiplicative inverse, returns
the product of all the original values with tree `Unnamed`, and leaves
every element's tree completely unchanged (no `Inv` wrapping). -/
theorem batchInvert_contract (inputs : List TestScalar)
    (h : ∀ s ∈ inputs, s.value ≠ 0) :
    (TestScalar.batchInvert inputs).2.map TestScalar.tree
        = inputs.map TestScalar.tree ∧
    (TestScalar.batchInvert inputs).2.map TestScalar.value
        = inputs.map (fun s => (s.value)⁻¹) ∧
    (TestScalar.batchInvert inputs).1.value
        = (inputs.map TestScalar.value).prod ∧
    (TestScalar.batchInvert inputs).1.tree = Tree.Unnamed := by
  have hw := zipWith_writeback inputs
    ((inputs.map TestScalar.value).map fun x => x⁻¹) (by simp)
  refine ⟨hw.1, ?_, rfl, rfl⟩
  rw [show (TestScalar.batchInvert inputs).2
      = List.zipWith (fun a b => { a with value := b }) inputs
          ((inputs.map TestScalar.value).map fun x => x⁻¹) from rfl,
    hw.2, List.map_map]
  rfl

/-- Witness for C8: batch inversion of the singleton slice `[ONE]`. -/
theorem batchInvert_contract_witness :
    (TestScalar.batchInvert [TestScalar.ONE]).2.map TestScalar.tree
        = [TestScalar.ONE].map TestScalar.tree ∧
    (TestScalar.batchInvert [TestScalar.ONE]).2.map TestScalar.value
        = [TestScalar.ONE].map (fun s => (s.value)⁻¹) ∧
    (TestScalar.batchInvert [TestScalar.ONE]).1.value
        = ([TestScalar.ONE].map TestScalar.value).prod ∧
    (TestScalar.batchInvert [TestScalar.ONE]).1.tree = Tree.Unnamed :=
  batchInvert_contract [TestScalar.ONE] (by
    intro s hs
    rw [List.mem_singleton] at hs
    subst hs
    show (1 : DalekScalar) ≠ 0
    exact one_ne_zero)

/-- C9: byte round-trip for shadow scalars.  Decoding the encoding of any
shadow scalar succeeds and recovers the same numeric value; decoding
the 32-byte little-endian encoding of the group order itself, or the
all-0xff byte pattern, yields an absent result. -/
theorem canonical_bytes_roundtrip (s : TestScalar) :
    (∃ t, TestScalar.fromCanonicalBytes s.toBytes = some t ∧
        t.value = s.value) ∧
    TestScalar.fromCanonicalBytes (natToBytes 32 ell) = none ∧
    TestScalar.fromCanonicalBytes (List.replicate 32 255) = none := by
  refine ⟨?_, ?_, ?_⟩
  · have hval : s.value.val < ell := ZMod.val_lt s.value
    have hlt : s.value.val < 256 ^ 32 := hval.trans ell_lt_byte_range
    have hdec : bytesToNat (TestScalar.toBytes s) = s.value.val := by
      simp [TestScalar.toBytes, dalekToBytes, bytesToNat_natToBytes hlt]
    refine ⟨TestScalar.fromDalek ((s.value.val : ℕ) : ZMod ell), ?_, ?_⟩
    · simp [TestScalar.fromCanonicalBytes, dalekFromCanonicalBytes, hdec,
        hval]
    · exact ZMod.natCast_rightInverse s.value
  · have hdec : bytesToNat (natToBytes 32 ell) = ell :=
      bytesToNat_natToBytes ell_lt_byte_range
    simp [TestScalar.fromCanonicalBytes, dalekFromCanonicalBytes, hdec]
  · have hbig : ¬ bytesToNat (List.replicate 32 255) < ell := by decide
    unfold TestScalar.fromCanonicalBytes dalekFromCanonicalBytes
    rw [if_neg hbig]
    rfl

/-- C10: the Debug rendering of a shadow point uses the tuple-struct label
"Scalar" — the same label as the shadow scalar — around the tree's
rendering, so a shadow scalar and a shadow point with the same tree print
identically and point output carries no point-specific label. -/
theorem point_debug_label (s : TestScalar) (p : TestRistrettoPoint)
    (h : s.tree = p.tree) :
    TestScalar.debugFmt s = TestRistrettoPoint.debugFmt p ∧
    TestRistrettoPoint.debugFmt p = "Scalar(" ++ p.tree.render ++ ")" := by
  constructor
  · simp [TestScalar.debugFmt, TestRistrettoPoint.debugFmt, h]
  · rfl

/-- Witness for C10: a shadow scalar and a shadow point sharing the tree
`Name "x"` print as the same string `Scalar(x)`. -/
theorem point_debug_label_witness :
    TestScalar.debugFmt ⟨1, Tree.Name "x"⟩
        = TestRistrettoPoint.debugFmt ⟨RPoint.basepoint, Tree.Name "x"⟩ ∧
    TestRistrettoPoint.debugFmt ⟨RPoint.basepoint, Tree.Name "x"⟩
        = "Scalar(" ++ (Tree.Name "x").render ++ ")" :=
  point_debug_label ⟨1, Tree.Name "x"⟩ ⟨RPoint.basepoint, Tree.Name "x"⟩ rfl

end CurveDbg
